import Mathlib

/-!
# Verification of the Bluesky alt-text review/apply workflow

A shallow embedding of the client-side state machine of
`frontend/src/App.tsx` and its API types (`frontend/src/api.ts`):
per-image selection state, default derivation from a scan result,
bulk selection operations, the filter predicate, and the scan/apply
event handlers with their success and failure branches.

JavaScript objects keyed by strings are modelled extensionally as
functions `String → Option AltState`; object spread with a computed
key (`{...prev, [key]: v}`) becomes a pointwise update; `forEach`
mutation loops become `List.foldl`.  The network is modelled as an
oracle parameter and handlers additionally return the list of
requests they issued, so "no network call" is expressible.
-/

set_option autoImplicit false

namespace AltSlinger

/-- `ImageInfo` from `api.ts`: `alt` and `generated_alt` are optional
(`string | null | undefined` collapses to `Option String`). -/
structure ImageInfo where
  index : Nat
  thumb_url : String
  fullsize_url : String
  alt : Option String
  generated_alt : Option String
  deriving DecidableEq

/-- `PostInfo` from `api.ts`. -/
structure PostInfo where
  uri : String
  cid : String
  text : String
  created_at : Option String
  images : List ImageInfo
  deriving DecidableEq

/-- `ScanResponse` from `api.ts`. -/
structure ScanResponse where
  handle : String
  total_posts : Nat
  total_images : Nat
  posts : List PostInfo
  alt_generation_enabled : Bool
  deriving DecidableEq

/-- `ScanRequest` from `api.ts` (after `onSubmit` fills `generate_alt`). -/
structure ScanRequest where
  handle : String
  app_password : String
  generate_alt : Bool
  deriving DecidableEq

/-- `AltUpdate` from `api.ts`. -/
structure AltUpdate where
  uri : String
  image_index : Nat
  new_alt : String
  deriving DecidableEq

/-- `ApplyResultItem` from `api.ts`. -/
structure ApplyResultItem where
  uri : String
  success : Bool
  error : Option String
  deriving DecidableEq

/-- `ApplyResponse` from `api.ts`. -/
structure ApplyResponse where
  updated : List ApplyResultItem
  deriving DecidableEq

/-- `AltState` from `App.tsx`. -/
structure AltState where
  apply : Bool
  draftAlt : String
  deriving DecidableEq

/-- `AltStateMap` from `App.tsx` (`{[key: string]: AltState}`),
modelled extensionally by its lookup function. -/
def AltStateMap : Type := String → Option AltState

/-- The empty object `{}`. -/
def emptyAltMap : AltStateMap := fun _ => none

/-- `{...prev, [key]: v}`: pointwise update at one key. -/
def updateMap (m : AltStateMap) (k : String) (v : AltState) : AltStateMap :=
  fun q => if q = k then some v else m q

/-- `makeKey` from `App.tsx`: the composite key `uri::index`. -/
def makeKey (uri : String) (index : Nat) : String :=
  uri ++ "::" ++ toString index

/-- `FilterMode` from `App.tsx`. -/
inductive FilterMode where
  | all
  | missingAlt
  | hasAlt
  | selected
  deriving DecidableEq

/-- JavaScript `String.prototype.trim`: strip leading and trailing
whitespace.  (Lean's own `String.trim` is defined by well-founded
recursion over byte positions and does not evaluate in the kernel, so
the same operation is modelled structurally over the character list.) -/
def jsTrim (s : String) : String :=
  String.mk (((s.data.dropWhile Char.isWhitespace).reverse.dropWhile Char.isWhitespace).reverse)

/-- The recurring JS condition `img.alt && img.alt.trim().length > 0`
(the alt is truthy — present and non-empty — and non-blank after trim). -/
def altTruthyNonblank : Option String → Bool
  | some a => decide (a ≠ "") && decide (0 < (jsTrim a).length)
  | none => false

/-- `img.alt && img.alt.trim().length > 0 ? img.alt : img.generated_alt || ""`:
the draft text both `initAltStateFromResult` and `bulkSelectMissingAlt`
derive for an image. -/
def baseAlt (img : ImageInfo) : String :=
  if altTruthyNonblank img.alt then img.alt.getD "" else img.generated_alt.getD ""

/-- `!img.alt || img.alt.trim().length === 0`: the default apply flag in
`initAltStateFromResult`. -/
def defaultApply : Option String → Bool
  | some a => decide (a = "") || decide ((jsTrim a).length = 0)
  | none => true

/-- The `AltState` stored for one image by `initAltStateFromResult`. -/
def defaultAltState (img : ImageInfo) : AltState :=
  { apply := defaultApply img.alt, draftAlt := baseAlt img }

/-- The composite key of a `(post.uri, image)` pair. -/
def keyOf (x : String × ImageInfo) : String :=
  makeKey x.1 x.2.index

/-- All `(post.uri, image)` pairs of a list of posts, in traversal order. -/
def pairsOfPosts (posts : List PostInfo) : List (String × ImageInfo) :=
  posts.foldr (fun p acc => (p.images.map (fun i => (p.uri, i))) ++ acc) []

/-- All `(post.uri, image)` pairs of a scan result. -/
def allImages (r : ScanResponse) : List (String × ImageInfo) :=
  pairsOfPosts r.posts

/-- `initAltStateFromResult` from `App.tsx`: rebuilds the selection map
from scratch, one entry per image of the scan result. -/
def initAltStateFromResult (data : ScanResponse) : AltStateMap :=
  data.posts.foldl
    (fun acc post =>
      post.images.foldl
        (fun acc2 img => updateMap acc2 (makeKey post.uri img.index) (defaultAltState img))
        acc)
    emptyAltMap

/-- `handleAltChange` from `App.tsx`: replace the draft text for one key,
keeping `prev[key]?.apply ?? false`. -/
def handleAltChange (uri : String) (index : Nat) (value : String)
    (prev : AltStateMap) : AltStateMap :=
  updateMap prev (makeKey uri index)
    { apply := match prev (makeKey uri index) with
        | some st => st.apply
        | none => false,
      draftAlt := value }

/-- `handleApplyToggle` from `App.tsx`: replace the apply flag for one key,
keeping `prev[key]?.draftAlt ?? ""`. -/
def handleApplyToggle (uri : String) (index : Nat) (apply : Bool)
    (prev : AltStateMap) : AltStateMap :=
  updateMap prev (makeKey uri index)
    { apply := apply,
      draftAlt := match prev (makeKey uri index) with
        | some st => st.draftAlt
        | none => "" }

/-- One image's contribution to the update batch in `onApplyChanges`:
skip when there is no state or `apply` is off, trim the draft, skip when
the trimmed draft is empty, else push the update. -/
def buildStep (a : AltStateMap) (acc : List AltUpdate) (x : String × ImageInfo) :
    List AltUpdate :=
  match a (makeKey x.1 x.2.index) with
  | none => acc
  | some st =>
      if st.apply = false then acc
      else if jsTrim st.draftAlt = "" then acc
      else acc ++ [{ uri := x.1, image_index := x.2.index, new_alt := jsTrim st.draftAlt }]

/-- The `updates` batch built at the top of `onApplyChanges`. -/
def buildUpdates (result : ScanResponse) (a : AltStateMap) : List AltUpdate :=
  result.posts.foldl
    (fun acc post =>
      post.images.foldl (fun acc2 img => buildStep a acc2 (post.uri, img)) acc)
    []

/-- One image's step of `bulkSelectMissingAlt`: images with alt text are
skipped; otherwise the entry (existing, or a fresh default with
`apply = false`) is stored with `apply` forced to `true`. -/
def bulkStep (m : AltStateMap) (x : String × ImageInfo) : AltStateMap :=
  if altTruthyNonblank x.2.alt then m
  else
    let existing := (m (makeKey x.1 x.2.index)).getD { apply := false, draftAlt := baseAlt x.2 }
    updateMap m (makeKey x.1 x.2.index) { existing with apply := true }

/-- `bulkSelectMissingAlt` from `App.tsx` (the update it performs on the
selection map, given the current scan result). -/
def bulkSelectMissingAlt (result : ScanResponse) (m : AltStateMap) : AltStateMap :=
  result.posts.foldl
    (fun acc post =>
      post.images.foldl (fun acc2 img => bulkStep acc2 (post.uri, img)) acc)
    m

/-- `bulkClearSelections` from `App.tsx`: rebuilds the map from its
entries with `apply := false`, keeping each `draftAlt`. -/
def bulkClearSelections (prev : AltStateMap) : AltStateMap :=
  fun k => match prev k with
  | some v => some { v with apply := false }
  | none => none

/-- `shouldShowImage` from `App.tsx`. -/
def shouldShowImage (altState : AltStateMap) (filterMode : FilterMode)
    (post : PostInfo) (img : ImageInfo) : Bool :=
  let state := altState (makeKey post.uri img.index)
  let hasAlt := altTruthyNonblank img.alt
  let isSelected := match state with
    | some st => st.apply
    | none => false
  match filterMode with
  | FilterMode.missingAlt => !hasAlt
  | FilterMode.hasAlt => hasAlt
  | FilterMode.selected => isSelected
  | FilterMode.all => true

/-- The per-image optimistic merge in `onApplyChanges`:
`state?.apply && state.draftAlt.trim()` replaces the image's alt with the
trimmed draft, else the image is unchanged. -/
def applyDraftToImage (a : AltStateMap) (uri : String) (img : ImageInfo) : ImageInfo :=
  match a (makeKey uri img.index) with
  | some st =>
      if st.apply && decide (jsTrim st.draftAlt ≠ "") then
        { img with alt := some (jsTrim st.draftAlt) }
      else img
  | none => img

/-- `nextResult` in `onApplyChanges`: the scan result after the
optimistic merge of all selected non-blank drafts. -/
def reconcileResult (result : ScanResponse) (a : AltStateMap) : ScanResponse :=
  { result with
    posts := result.posts.map (fun post =>
      { post with images := post.images.map (applyDraftToImage a post.uri) }) }

/-- What `JSON.parse(err.message)` yields in the catch blocks:
parsing throws, or parses with a falsy `detail`, or produces a string
`detail`, or a structured `detail` (carried here already stringified). -/
inductive ParsedBody where
  | parseFailed
  | noDetail
  | detailString (s : String)
  | detailOther (stringified : String)
  deriving DecidableEq

/-- The error thrown by `scanImages`/`applyAltUpdates` in `api.ts`:
its `message` is the raw response body (or an HTTP fallback), and
`parsed` abstracts how `JSON.parse` treats that message. -/
structure ThrownError where
  message : String
  parsed : ParsedBody
  deriving DecidableEq

/-- The message-extraction logic shared by both catch blocks in
`App.tsx`: prefer a structured `detail`, else, when parsing failed, the
raw non-empty message, else the generic fallback. -/
def extractErrorMessage (generic : String) (err : ThrownError) : String :=
  match err.parsed with
  | ParsedBody.detailString s => s
  | ParsedBody.detailOther j => j
  | ParsedBody.noDetail => generic
  | ParsedBody.parseFailed => if err.message = "" then generic else err.message

/-- The React component state of `App.tsx` (one field per `useState`). -/
structure AppState where
  handle : String
  appPassword : String
  loading : Bool
  applying : Bool
  error : Option String
  applyMessage : Option String
  result : Option ScanResponse
  altState : AltStateMap
  filterMode : FilterMode

/-- `onSubmit` from `App.tsx`, as a function of the scan call's outcome
(`net`).  Also returns the list of scan requests issued, so that "no
network call" is expressible.  Note the handler clears `error`,
`applyMessage`, `result` and `altState` before validating credentials. -/
def onSubmit (s : AppState) (net : Except ThrownError ScanResponse) :
    AppState × List ScanRequest :=
  let s1 : AppState :=
    { s with error := none, applyMessage := none, result := none, altState := emptyAltMap }
  if s.handle = "" ∨ s.appPassword = "" then
    ({ s1 with error := some "Please enter both handle and app password." }, [])
  else
    let req : ScanRequest :=
      { handle := s.handle, app_password := s.appPassword, generate_alt := true }
    let s2 : AppState := { s1 with loading := true }
    match net with
    | Except.ok data =>
        ({ s2 with result := some data, altState := initAltStateFromResult data,
                   loading := false }, [req])
    | Except.error e =>
        ({ s2 with error := some (extractErrorMessage "An error occurred while scanning." e),
                   loading := false }, [req])

/-- `onApplyChanges` from `App.tsx`, as a function of the apply call's
outcome (`net`, an oracle from the submitted batch).  Also returns the
list of apply requests issued. -/
def onApplyChanges (s : AppState)
    (net : List AltUpdate → Except ThrownError ApplyResponse) :
    AppState × List (List AltUpdate) :=
  match s.result with
  | none => (s, [])
  | some result =>
    let s1 : AppState := { s with applyMessage := none, error := none }
    let updates := buildUpdates result s.altState
    if updates.length = 0 then
      ({ s1 with applyMessage := some "No images selected for update." }, [])
    else
      let s2 : AppState := { s1 with applying := true }
      match net updates with
      | Except.ok resp =>
          let successes := (resp.updated.filter (fun r => r.success)).length
          let failures := resp.updated.length - successes
          let msg := "Applied alt text to " ++ toString successes ++ " post(s)." ++
            (if 0 < failures then
              " " ++ toString failures ++ " post(s) failed; check logs/errors."
            else "")
          ({ s2 with applyMessage := some msg,
                     result := some (reconcileResult result s.altState),
                     applying := false }, [updates])
      | Except.error e =>
          ({ s2 with
              error := some (extractErrorMessage "An error occurred while applying changes." e),
              applying := false }, [updates])

/-! Concrete sample data, used to instantiate theorems with hypotheses. -/

/-- A sample image with no existing alt and a suggestion. -/
def imgNoAlt : ImageInfo :=
  { index := 0, thumb_url := "t0", fullsize_url := "f0",
    alt := none, generated_alt := some "a red bicycle" }

/-- A sample image that already has alt text. -/
def imgHasAlt : ImageInfo :=
  { index := 1, thumb_url := "t1", fullsize_url := "f1",
    alt := some "cat", generated_alt := some "a cat" }

/-- A sample image whose existing alt is blank after trimming. -/
def imgBlankAlt : ImageInfo :=
  { index := 0, thumb_url := "t2", fullsize_url := "f2",
    alt := some " ", generated_alt := none }

/-- A sample post with two images. -/
def postA : PostInfo :=
  { uri := "at://did/app.bsky.feed.post/1", cid := "c1", text := "hello",
    created_at := some "2024-01-01", images := [imgNoAlt, imgHasAlt] }

/-- A sample post with one blank-alt image. -/
def postB : PostInfo :=
  { uri := "at://did/app.bsky.feed.post/2", cid := "c2", text := "",
    created_at := none, images := [imgBlankAlt] }

/-- A sample scan result with two posts and three images. -/
def scanA : ScanResponse :=
  { handle := "alice.bsky.social", total_posts := 2, total_images := 3,
    posts := [postA, postB], alt_generation_enabled := true }

/-- The `(uri, image)` pair of `imgNoAlt` inside `scanA`. -/
def pairNoAlt : String × ImageInfo := ("at://did/app.bsky.feed.post/1", imgNoAlt)

/-- The `(uri, image)` pair of `imgHasAlt` inside `scanA`. -/
def pairHasAlt : String × ImageInfo := ("at://did/app.bsky.feed.post/1", imgHasAlt)

/-- A sample selection map: image 0 of `postA` selected with a padded
draft, image 1 selected but with a blank draft, nothing else stored. -/
def mapSel : AltStateMap := fun k =>
  if k = makeKey "at://did/app.bsky.feed.post/1" 0 then
    some { apply := true, draftAlt := " a red bicycle " }
  else if k = makeKey "at://did/app.bsky.feed.post/1" 1 then
    some { apply := true, draftAlt := "  " }
  else none

/-- The empty selection map as a sample. -/
def mapNone : AltStateMap := fun _ => none

/-- A sample component state holding `scanA` and `mapSel`. -/
def stateA : AppState :=
  { handle := "alice.bsky.social", appPassword := "pw", loading := false,
    applying := false, error := none, applyMessage := none,
    result := some scanA, altState := mapSel, filterMode := FilterMode.all }

/-- `stateA` with nothing selected. -/
def stateEmptySel : AppState := { stateA with altState := mapNone }

/-- `stateA` with an empty handle. -/
def stateNoCreds : AppState := { stateA with handle := "" }

/-- A sample thrown transport error whose body fails to parse. -/
def errBoom : ThrownError := { message := "boom", parsed := ParsedBody.parseFailed }

/-- A sample apply response reporting one failed item. -/
def respOneFail : ApplyResponse :=
  { updated := [{ uri := "at://did/app.bsky.feed.post/1", success := false,
                  error := some "nope" }] }

/-- A network oracle that always succeeds with `respOneFail`. -/
def netApplyOk : List AltUpdate → Except ThrownError ApplyResponse :=
  fun _ => Except.ok respOneFail

/-- A network oracle that always fails with `errBoom`. -/
def netApplyFail : List AltUpdate → Except ThrownError ApplyResponse :=
  fun _ => Except.error errBoom

/-- The double `forEach` over posts and images equals one fold over the
flattened `(uri, image)` pair list. -/
theorem nested_foldl_eq {α : Type} (g : α → String × ImageInfo → α)
    (posts : List PostInfo) (init : α) :
    posts.foldl (fun acc post =>
      post.images.foldl (fun a i => g a (post.uri, i)) acc) init
    = (pairsOfPosts posts).foldl g init := by
  induction posts generalizing init with
  | nil => rfl
  | cons p ps ih =>
      simp only [List.foldl_cons, pairsOfPosts, List.foldr_cons, List.foldl_append,
        List.foldl_map]
      exact ih _

/-- `initAltStateFromResult` as a fold over the flattened image list. -/
theorem initAltStateFromResult_eq_flat (data : ScanResponse) :
    initAltStateFromResult data
    = (allImages data).foldl (fun m x => updateMap m (keyOf x) (defaultAltState x.2))
        emptyAltMap := by
  unfold initAltStateFromResult allImages
  exact nested_foldl_eq (fun m x => updateMap m (keyOf x) (defaultAltState x.2)) data.posts _

theorem updateMap_same (m : AltStateMap) (k : String) (v : AltState) :
    updateMap m k v k = some v := by
  simp [updateMap]

theorem updateMap_other (m : AltStateMap) (k : String) (v : AltState) (q : String)
    (h : q ≠ k) : updateMap m k v q = m q := by
  simp [updateMap, h]

theorem string_eq_empty_iff_length (s : String) : s = "" ↔ s.length = 0 := by
  constructor
  · rintro rfl; rfl
  · intro h
    cases s with
    | mk data =>
        cases data with
        | nil => rfl
        | cons c cs => simp [String.length] at h

theorem jsTrim_empty : jsTrim "" = "" := rfl

theorem altTruthyNonblank_some_iff (a : String) :
    altTruthyNonblank (some a) = true ↔ jsTrim a ≠ "" := by
  simp only [altTruthyNonblank, Bool.and_eq_true, decide_eq_true_eq]
  constructor
  · intro h he
    rw [string_eq_empty_iff_length] at he
    omega
  · intro h
    refine ⟨fun he => h (by rw [he]; rfl), ?_⟩
    rcases Nat.eq_zero_or_pos (jsTrim a).length with h0 | h0
    · exact absurd ((string_eq_empty_iff_length _).mpr h0) h
    · exact h0

theorem defaultApply_some_iff (a : String) :
    defaultApply (some a) = true ↔ jsTrim a = "" := by
  simp only [defaultApply, Bool.or_eq_true, decide_eq_true_eq]
  constructor
  · rintro (rfl | h)
    · rfl
    · exact (string_eq_empty_iff_length _).mpr h
  · intro h
    exact Or.inr ((string_eq_empty_iff_length _).mp h)

/-- A fold that writes `val y` at `keyOf y` leaves untouched every key
that is the key of no element. -/
theorem foldl_write_notmem (val : String × ImageInfo → AltState)
    (l : List (String × ImageInfo)) (m : AltStateMap) (k : String)
    (h : ∀ y ∈ l, keyOf y ≠ k) :
    l.foldl (fun m2 y => updateMap m2 (keyOf y) (val y)) m k = m k := by
  induction l generalizing m with
  | nil => rfl
  | cons y ys ih =>
      simp only [List.foldl_cons]
      rw [ih _ (fun z hz => h z (List.mem_cons_of_mem _ hz))]
      exact updateMap_other _ _ _ _ (Ne.symm (h y (List.mem_cons_self _ _)))

/-- With pairwise-distinct keys, a writing fold ends with `val x` stored
under `keyOf x`, for every element `x`. -/
theorem foldl_write_nodup (val : String × ImageInfo → AltState)
    (l : List (String × ImageInfo)) (m : AltStateMap)
    (h : (l.map keyOf).Nodup) (x : String × ImageInfo) (hx : x ∈ l) :
    l.foldl (fun m2 y => updateMap m2 (keyOf y) (val y)) m (keyOf x) = some (val x) := by
  induction l generalizing m with
  | nil => cases hx
  | cons y ys ih =>
      simp only [List.map_cons, List.nodup_cons] at h
      simp only [List.foldl_cons]
      rcases List.mem_cons.mp hx with rfl | hmem
      · rw [foldl_write_notmem _ _ _ _
          (fun z hz he => h.1 (List.mem_map.mpr ⟨z, hz, he⟩))]
        exact updateMap_same _ _ _
      · exact ih _ h.2 hmem

/-- `buildUpdates` as a fold over the flattened image list. -/
theorem buildUpdates_eq_flat (r : ScanResponse) (a : AltStateMap) :
    buildUpdates r a = (allImages r).foldl (buildStep a) [] := by
  unfold buildUpdates allImages
  exact nested_foldl_eq (buildStep a) r.posts []

/-- Membership through one `buildStep`. -/
theorem mem_buildStep (a : AltStateMap) (acc : List AltUpdate)
    (y : String × ImageInfo) (u : AltUpdate) :
    u ∈ buildStep a acc y
    ↔ u ∈ acc ∨ ∃ st, a (makeKey y.1 y.2.index) = some st ∧ st.apply = true
        ∧ jsTrim st.draftAlt ≠ ""
        ∧ u = { uri := y.1, image_index := y.2.index, new_alt := jsTrim st.draftAlt } := by
  unfold buildStep
  cases h : a (makeKey y.1 y.2.index) with
  | none => simp [h]
  | some st =>
      by_cases hap : st.apply = false
      · simp [hap]
      · rw [Bool.not_eq_false] at hap
        by_cases hdr : jsTrim st.draftAlt = ""
        · simp [hap, hdr]
        · simp [hap, hdr]

/-- Membership in the folded batch. -/
theorem mem_foldl_buildStep (a : AltStateMap) (l : List (String × ImageInfo))
    (acc : List AltUpdate) (u : AltUpdate) :
    u ∈ l.foldl (buildStep a) acc
    ↔ u ∈ acc ∨ ∃ x ∈ l, ∃ st, a (makeKey x.1 x.2.index) = some st
        ∧ st.apply = true ∧ jsTrim st.draftAlt ≠ ""
        ∧ u = { uri := x.1, image_index := x.2.index, new_alt := jsTrim st.draftAlt } := by
  induction l generalizing acc with
  | nil => simp
  | cons y ys ih =>
      rw [List.foldl_cons, ih, mem_buildStep]
      constructor
      · rintro ((hu | hy) | ⟨x, hx, rest⟩)
        · exact Or.inl hu
        · exact Or.inr ⟨y, List.mem_cons_self _ _, hy⟩
        · exact Or.inr ⟨x, List.mem_cons_of_mem _ hx, rest⟩
      · rintro (hu | ⟨x, hx, rest⟩)
        · exact Or.inl (Or.inl hu)
        · rcases List.mem_cons.mp hx with rfl | hx2
          · exact Or.inl (Or.inr rest)
          · exact Or.inr ⟨x, hx2, rest⟩

/-- C2: the built batch contains an update for an image exactly when
that image's stored selection has `apply = true` and a non-empty trimmed
draft, the update carrying the trimmed draft; in particular the batch
never contains an update with an empty alt. -/
theorem buildUpdates_mem_iff (r : ScanResponse) (a : AltStateMap) :
    (∀ u, u ∈ buildUpdates r a
      ↔ ∃ x ∈ allImages r, ∃ st, a (makeKey x.1 x.2.index) = some st
          ∧ st.apply = true ∧ jsTrim st.draftAlt ≠ ""
          ∧ u = { uri := x.1, image_index := x.2.index, new_alt := jsTrim st.draftAlt })
    ∧ ∀ u, u ∈ buildUpdates r a → u.new_alt ≠ "" := by
  have hmain : ∀ u, u ∈ buildUpdates r a
      ↔ ∃ x ∈ allImages r, ∃ st, a (makeKey x.1 x.2.index) = some st
          ∧ st.apply = true ∧ jsTrim st.draftAlt ≠ ""
          ∧ u = { uri := x.1, image_index := x.2.index, new_alt := jsTrim st.draftAlt } := by
    intro u
    rw [buildUpdates_eq_flat, mem_foldl_buildStep]
    simp
  refine ⟨hmain, ?_⟩
  intro u hu
  rcases (hmain u).mp hu with ⟨x, hx, st, hst, hap, hdr, rfl⟩
  exact hdr

/-- Witness for C2: the padded selected draft of `scanA`/`mapSel` is in
the batch, trimmed, and certifies the existential. -/
theorem buildUpdates_mem_iff_witness :
    ({ uri := "at://did/app.bsky.feed.post/1", image_index := 0,
       new_alt := "a red bicycle" } : AltUpdate) ∈ buildUpdates scanA mapSel
    ∧ (∃ x ∈ allImages scanA, ∃ st, mapSel (makeKey x.1 x.2.index) = some st
        ∧ st.apply = true ∧ jsTrim st.draftAlt ≠ ""
        ∧ ({ uri := "at://did/app.bsky.feed.post/1", image_index := 0,
             new_alt := "a red bicycle" } : AltUpdate)
            = { uri := x.1, image_index := x.2.index, new_alt := jsTrim st.draftAlt }) :=
  ⟨by decide,
   ((buildUpdates_mem_iff scanA mapSel).1
     { uri := "at://did/app.bsky.feed.post/1", image_index := 0,
       new_alt := "a red bicycle" }).mp (by decide)⟩

/-- C1: for every image of a freshly scanned result (with pairwise
distinct composite keys, as the data model guarantees), the initial
selection state has `draftAlt` equal to the existing alt when that alt
is non-empty after trimming, else the generated alt when present, else
`""`; and `apply = true` exactly when the existing alt is absent or
empty after trimming. -/
theorem initAltState_default_derivation (data : ScanResponse)
    (hkeys : ((allImages data).map keyOf).Nodup)
    (x : String × ImageInfo) (hx : x ∈ allImages data) :
    ∃ st, initAltStateFromResult data (makeKey x.1 x.2.index) = some st
      ∧ st.draftAlt = (match x.2.alt with
          | some a => if jsTrim a ≠ "" then a else x.2.generated_alt.getD ""
          | none => x.2.generated_alt.getD "")
      ∧ (st.apply = true ↔ (x.2.alt = none ∨ ∃ a, x.2.alt = some a ∧ jsTrim a = "")) := by
  refine ⟨defaultAltState x.2, ?_, ?_, ?_⟩
  · rw [initAltStateFromResult_eq_flat]
    exact foldl_write_nodup (fun y => defaultAltState y.2) _ _ hkeys x hx
  · show baseAlt x.2 = _
    unfold baseAlt
    cases halt : x.2.alt with
    | none => simp [altTruthyNonblank]
    | some a =>
        by_cases h : jsTrim a = ""
        · have hfalse : altTruthyNonblank (some a) = false := by
            cases hb : altTruthyNonblank (some a)
            · rfl
            · exact absurd ((altTruthyNonblank_some_iff a).mp hb) (by simp [h])
          simp [hfalse, h]
        · have htrue : altTruthyNonblank (some a) = true :=
            (altTruthyNonblank_some_iff a).mpr h
          simp [htrue, h]
  · show defaultApply x.2.alt = true ↔ _
    cases halt : x.2.alt with
    | none => simp [defaultApply]
    | some a =>
        rw [defaultApply_some_iff]
        constructor
        · intro h
          exact Or.inr ⟨a, rfl, h⟩
        · rintro (h | ⟨b, hb, h⟩)
          · exact absurd h (by simp)
          · cases hb
            exact h

/-- Witness for C1 at the suggestion-only image of `scanA`. -/
theorem initAltState_default_derivation_witness :
    ((allImages scanA).map keyOf).Nodup
    ∧ pairNoAlt ∈ allImages scanA
    ∧ (∃ st, initAltStateFromResult scanA (makeKey pairNoAlt.1 pairNoAlt.2.index) = some st
        ∧ st.draftAlt = (match pairNoAlt.2.alt with
            | some a => if jsTrim a ≠ "" then a else pairNoAlt.2.generated_alt.getD ""
            | none => pairNoAlt.2.generated_alt.getD "")
        ∧ (st.apply = true
            ↔ (pairNoAlt.2.alt = none ∨ ∃ a, pairNoAlt.2.alt = some a ∧ jsTrim a = ""))) :=
  ⟨by decide, by decide,
   initAltState_default_derivation scanA (by decide) pairNoAlt (by decide)⟩

/-- C7: `bulkClearSelections` sets `apply := false` for every existing
entry while leaving its `draftAlt` unchanged, and keys that had no entry
before the call still have no entry after it. -/
theorem bulkClearSelections_spec (m : AltStateMap) (k : String) :
    (∀ st, m k = some st →
      bulkClearSelections m k = some { apply := false, draftAlt := st.draftAlt })
    ∧ (m k = none → bulkClearSelections m k = none) := by
  constructor
  · intro st h
    simp [bulkClearSelections, h]
  · intro h
    simp [bulkClearSelections, h]

/-- Witness for C7 at a stored key and at an absent key. -/
theorem bulkClearSelections_spec_witness :
    mapSel (makeKey "at://did/app.bsky.feed.post/1" 0)
        = some { apply := true, draftAlt := " a red bicycle " }
    ∧ bulkClearSelections mapSel (makeKey "at://did/app.bsky.feed.post/1" 0)
        = some { apply := false, draftAlt := " a red bicycle " }
    ∧ mapSel "zzz" = none
    ∧ bulkClearSelections mapSel "zzz" = none :=
  ⟨by decide,
   (bulkClearSelections_spec mapSel (makeKey "at://did/app.bsky.feed.post/1" 0)).1
     { apply := true, draftAlt := " a red bicycle " } (by decide),
   by decide,
   (bulkClearSelections_spec mapSel "zzz").2 (by decide)⟩

/-- C8: for every selection state and image, mode `all` always shows the
image, and exactly one of modes `missingAlt` and `hasAlt` shows it. -/
theorem shouldShowImage_partition (a : AltStateMap) (p : PostInfo) (img : ImageInfo) :
    shouldShowImage a FilterMode.all p img = true
    ∧ (shouldShowImage a FilterMode.missingAlt p img = true
        ∨ shouldShowImage a FilterMode.hasAlt p img = true)
    ∧ ¬(shouldShowImage a FilterMode.missingAlt p img = true
        ∧ shouldShowImage a FilterMode.hasAlt p img = true) := by
  cases h : altTruthyNonblank img.alt <;> simp [shouldShowImage, h]

/-- C9: `handleAltChange` replaces only the draft under its key, keeping
the stored apply flag (`false` when absent); `handleApplyToggle` replaces
only the apply flag, keeping the stored draft (`""` when absent); both
leave every other key unchanged. -/
theorem single_key_edit_frame (uri : String) (index : Nat) (value : String)
    (flag : Bool) (prev : AltStateMap) :
    (∀ st, prev (makeKey uri index) = some st →
        handleAltChange uri index value prev (makeKey uri index)
          = some { apply := st.apply, draftAlt := value })
    ∧ (prev (makeKey uri index) = none →
        handleAltChange uri index value prev (makeKey uri index)
          = some { apply := false, draftAlt := value })
    ∧ (∀ q, q ≠ makeKey uri index → handleAltChange uri index value prev q = prev q)
    ∧ (∀ st, prev (makeKey uri index) = some st →
        handleApplyToggle uri index flag prev (makeKey uri index)
          = some { apply := flag, draftAlt := st.draftAlt })
    ∧ (prev (makeKey uri index) = none →
        handleApplyToggle uri index flag prev (makeKey uri index)
          = some { apply := flag, draftAlt := "" })
    ∧ (∀ q, q ≠ makeKey uri index → handleApplyToggle uri index flag prev q = prev q) := by
  refine ⟨fun st h => ?_, fun h => ?_, fun q hq => ?_,
          fun st h => ?_, fun h => ?_, fun q hq => ?_⟩
  · unfold handleAltChange
    rw [updateMap_same, h]
  · unfold handleAltChange
    rw [updateMap_same, h]
  · unfold handleAltChange
    exact updateMap_other _ _ _ _ hq
  · unfold handleApplyToggle
    rw [updateMap_same, h]
  · unfold handleApplyToggle
    rw [updateMap_same, h]
  · unfold handleApplyToggle
    exact updateMap_other _ _ _ _ hq

/-- Witness for C9 at a stored key and at a distinct untouched key. -/
theorem single_key_edit_frame_witness :
    mapSel (makeKey "at://did/app.bsky.feed.post/1" 0)
        = some { apply := true, draftAlt := " a red bicycle " }
    ∧ handleAltChange "at://did/app.bsky.feed.post/1" 0 "dog" mapSel
        (makeKey "at://did/app.bsky.feed.post/1" 0)
        = some { apply := true, draftAlt := "dog" }
    ∧ "zzz" ≠ makeKey "at://did/app.bsky.feed.post/1" 0
    ∧ handleApplyToggle "at://did/app.bsky.feed.post/1" 0 false mapSel "zzz"
        = mapSel "zzz" :=
  ⟨by decide,
   (single_key_edit_frame "at://did/app.bsky.feed.post/1" 0 "dog" false mapSel).1
     { apply := true, draftAlt := " a red bicycle " } (by decide),
   by decide,
   (single_key_edit_frame "at://did/app.bsky.feed.post/1" 0 "dog" false mapSel).2.2.2.2.2
     "zzz" (by decide)⟩

/-- C10: submitting with an empty handle or app password issues no
network request and reports the credentials message, yet still discards
the previous scan result and all selection state (cleared before
credential validation). -/
theorem submit_empty_credentials_clears (s : AppState)
    (net : Except ThrownError ScanResponse)
    (h : s.handle = "" ∨ s.appPassword = "") :
    (onSubmit s net).2 = []
    ∧ (onSubmit s net).1.error = some "Please enter both handle and app password."
    ∧ (onSubmit s net).1.result = none
    ∧ (onSubmit s net).1.altState = emptyAltMap := by
  unfold onSubmit
  rw [if_pos h]
  exact ⟨rfl, rfl, rfl, rfl⟩

/-- Witness for C10 on a populated state with an empty handle. -/
theorem submit_empty_credentials_clears_witness :
    (stateNoCreds.handle = "" ∨ stateNoCreds.appPassword = "")
    ∧ ((onSubmit stateNoCreds (Except.error errBoom)).2 = []
       ∧ (onSubmit stateNoCreds (Except.error errBoom)).1.error
           = some "Please enter both handle and app password."
       ∧ (onSubmit stateNoCreds (Except.error errBoom)).1.result = none
       ∧ (onSubmit stateNoCreds (Except.error errBoom)).1.altState = emptyAltMap) :=
  ⟨Or.inl rfl, submit_empty_credentials_clears stateNoCreds (Except.error errBoom) (Or.inl rfl)⟩

theorem altTruthyNonblank_eq_true_iff (o : Option String) :
    altTruthyNonblank o = true ↔ ∃ a, o = some a ∧ jsTrim a ≠ "" := by
  cases o with
  | none => simp [altTruthyNonblank]
  | some a =>
      rw [altTruthyNonblank_some_iff]
      constructor
      · intro h
        exact ⟨a, rfl, h⟩
      · rintro ⟨b, hb, h⟩
        cases hb
        exact h

theorem altTruthyNonblank_eq_false_iff (o : Option String) :
    altTruthyNonblank o = false ↔ (o = none ∨ ∃ a, o = some a ∧ jsTrim a = "") := by
  rw [← Bool.not_eq_true, altTruthyNonblank_eq_true_iff]
  cases o with
  | none => simp
  | some a => simp

/-- `bulkSelectMissingAlt` as a fold over the flattened image list. -/
theorem bulkSelectMissingAlt_eq_flat (r : ScanResponse) (m : AltStateMap) :
    bulkSelectMissingAlt r m = (allImages r).foldl bulkStep m := by
  unfold bulkSelectMissingAlt allImages
  exact nested_foldl_eq bulkStep r.posts m

/-- A record whose `apply` flag is already `true` is unchanged by
forcing `apply := true`. -/
theorem altState_force_apply (st : AltState) (h : st.apply = true) :
    ({ st with apply := true } : AltState) = st := by
  cases st
  cases h
  rfl

/-- A `bulkStep` never disturbs a key that stores an already-selected
entry. -/
theorem bulkStep_preserve (m : AltStateMap) (y : String × ImageInfo) (k : String)
    (st : AltState) (hk : m k = some st) (hap : st.apply = true) :
    bulkStep m y k = some st := by
  unfold bulkStep
  cases hy : altTruthyNonblank y.2.alt with
  | true => simpa using hk
  | false =>
      simp only [Bool.false_eq_true, if_false]
      by_cases hkey : k = makeKey y.1 y.2.index
      · subst hkey
        rw [updateMap_same, hk]
        simp only [Option.getD_some]
        rw [altState_force_apply st hap]
      · rw [updateMap_other _ _ _ _ hkey]
        exact hk

/-- A whole pass never disturbs a key storing an already-selected entry. -/
theorem foldl_bulk_preserve (l : List (String × ImageInfo)) (m : AltStateMap)
    (k : String) (st : AltState) (hk : m k = some st) (hap : st.apply = true) :
    l.foldl bulkStep m k = some st := by
  induction l generalizing m with
  | nil => exact hk
  | cons y ys ih => exact ih _ (bulkStep_preserve m y k st hk hap)

/-- A pass leaves untouched every key that is the key of no missing-alt
image. -/
theorem foldl_bulk_frame (l : List (String × ImageInfo)) (m : AltStateMap) (k : String)
    (h : ∀ y ∈ l, altTruthyNonblank y.2.alt = false → makeKey y.1 y.2.index ≠ k) :
    l.foldl bulkStep m k = m k := by
  induction l generalizing m with
  | nil => rfl
  | cons y ys ih =>
      rw [List.foldl_cons, ih _ (fun z hz hza => h z (List.mem_cons_of_mem _ hz) hza)]
      unfold bulkStep
      cases hy : altTruthyNonblank y.2.alt with
      | true => rfl
      | false =>
          simp only [Bool.false_eq_true, if_false]
          exact updateMap_other _ _ _ _ (Ne.symm (h y (List.mem_cons_self _ _) hy))

/-- The value a `bulkStep` stores at a missing-alt image's own key. -/
theorem bulkStep_writes (m : AltStateMap) (x : String × ImageInfo)
    (hx : altTruthyNonblank x.2.alt = false) :
    bulkStep m x (makeKey x.1 x.2.index)
      = some { apply := true,
               draftAlt := match m (makeKey x.1 x.2.index) with
                 | some st => st.draftAlt
                 | none => baseAlt x.2 } := by
  unfold bulkStep
  rw [hx]
  simp only [Bool.false_eq_true, if_false]
  rw [updateMap_same]
  cases m (makeKey x.1 x.2.index) with
  | none => rfl
  | some st => rfl

/-- After one pass, every missing-alt image's key stores a selected
entry. -/
theorem foldl_bulk_apply_true (l : List (String × ImageInfo)) (m : AltStateMap)
    (x : String × ImageInfo) (hx : x ∈ l)
    (halt : altTruthyNonblank x.2.alt = false) :
    ∃ st, l.foldl bulkStep m (makeKey x.1 x.2.index) = some st ∧ st.apply = true := by
  induction l generalizing m with
  | nil => cases hx
  | cons y ys ih =>
      rw [List.foldl_cons]
      rcases List.mem_cons.mp hx with rfl | hmem
      · exact ⟨_, foldl_bulk_preserve ys _ _ _ (bulkStep_writes m x halt) rfl, rfl⟩
      · exact ih _ hmem

/-- A pass over a list all of whose missing-alt images are already
selected is the identity. -/
theorem foldl_bulk_id (l : List (String × ImageInfo)) (m : AltStateMap)
    (hinv : ∀ x ∈ l, altTruthyNonblank x.2.alt = false →
        ∃ st, m (makeKey x.1 x.2.index) = some st ∧ st.apply = true) :
    l.foldl bulkStep m = m := by
  induction l generalizing m with
  | nil => rfl
  | cons y ys ih =>
      have hy : bulkStep m y = m := by
        unfold bulkStep
        cases h : altTruthyNonblank y.2.alt with
        | true => rfl
        | false =>
            simp only [Bool.false_eq_true, if_false]
            rcases hinv y (List.mem_cons_self _ _) h with ⟨st, hk, hap⟩
            rw [hk]
            simp only [Option.getD_some]
            rw [altState_force_apply st hap]
            funext q
            by_cases hq : q = makeKey y.1 y.2.index
            · subst hq
              rw [updateMap_same, hk]
            · exact updateMap_other _ _ _ _ hq
      rw [List.foldl_cons, hy, ih _ (fun z hz hza => hinv z (List.mem_cons_of_mem _ hz) hza)]

/-- The exact value stored at a missing-alt image's key after a pass,
when keys are pairwise distinct. -/
theorem foldl_bulk_value (l : List (String × ImageInfo)) (m : AltStateMap)
    (hn : (l.map keyOf).Nodup) (x : String × ImageInfo) (hx : x ∈ l)
    (halt : altTruthyNonblank x.2.alt = false) :
    l.foldl bulkStep m (makeKey x.1 x.2.index)
      = some { apply := true,
               draftAlt := match m (makeKey x.1 x.2.index) with
                 | some st => st.draftAlt
                 | none => baseAlt x.2 } := by
  induction l generalizing m with
  | nil => cases hx
  | cons y ys ih =>
      simp only [List.map_cons, List.nodup_cons] at hn
      rw [List.foldl_cons]
      rcases List.mem_cons.mp hx with rfl | hmem
      · exact foldl_bulk_preserve ys _ _ _ (bulkStep_writes m x halt) rfl
      · have hne : makeKey x.1 x.2.index ≠ makeKey y.1 y.2.index := by
          intro he
          exact hn.1 (List.mem_map.mpr ⟨x, hmem, he⟩)
        have hstep : bulkStep m y (makeKey x.1 x.2.index) = m (makeKey x.1 x.2.index) := by
          unfold bulkStep
          cases hy : altTruthyNonblank y.2.alt with
          | true => rfl
          | false =>
              simp only [Bool.false_eq_true, if_false]
              exact updateMap_other _ _ _ _ hne
        rw [ih _ hn.2 hmem, hstep]

/-- C6: `bulkSelectMissingAlt` is idempotent; under pairwise-distinct
keys it leaves the entry of every image with non-blank alt text
unchanged, and for every image with absent/blank alt it stores
`apply = true` with the existing draft when present, else the Default
Derivation draft. -/
theorem bulkSelectMissingAlt_spec (r : ScanResponse) (m : AltStateMap)
    (hkeys : ((allImages r).map keyOf).Nodup) :
    bulkSelectMissingAlt r (bulkSelectMissingAlt r m) = bulkSelectMissingAlt r m
    ∧ (∀ x ∈ allImages r, (∃ a, x.2.alt = some a ∧ jsTrim a ≠ "") →
        bulkSelectMissingAlt r m (makeKey x.1 x.2.index) = m (makeKey x.1 x.2.index))
    ∧ (∀ x ∈ allImages r, (x.2.alt = none ∨ ∃ a, x.2.alt = some a ∧ jsTrim a = "") →
        bulkSelectMissingAlt r m (makeKey x.1 x.2.index)
          = some { apply := true,
                   draftAlt := match m (makeKey x.1 x.2.index) with
                     | some st => st.draftAlt
                     | none => baseAlt x.2 }) := by
  refine ⟨?_, ?_, ?_⟩
  · rw [bulkSelectMissingAlt_eq_flat, bulkSelectMissingAlt_eq_flat]
    exact foldl_bulk_id _ _ (fun x hx halt => by
      rw [← bulkSelectMissingAlt_eq_flat]
      rw [bulkSelectMissingAlt_eq_flat]
      exact foldl_bulk_apply_true _ m x hx halt)
  · intro x hx hhas
    rw [bulkSelectMissingAlt_eq_flat]
    apply foldl_bulk_frame
    intro y hy hya he
    have hisx : y = x :=
      List.inj_on_of_nodup_map hkeys hy hx he
    subst hisx
    exact absurd ((altTruthyNonblank_eq_true_iff _).mpr hhas) (by simp [hya])
  · intro x hx hmiss
    rw [bulkSelectMissingAlt_eq_flat]
    exact foldl_bulk_value _ _ hkeys x hx ((altTruthyNonblank_eq_false_iff _).mpr hmiss)

/-- Witness for C6 at the selected map of `scanA`: the has-alt image's
entry is untouched and the suggestion-only image keeps its stored
draft with `apply` forced on. -/
theorem bulkSelectMissingAlt_spec_witness :
    ((allImages scanA).map keyOf).Nodup
    ∧ bulkSelectMissingAlt scanA (bulkSelectMissingAlt scanA mapSel)
        = bulkSelectMissingAlt scanA mapSel
    ∧ pairHasAlt ∈ allImages scanA
    ∧ bulkSelectMissingAlt scanA mapSel (makeKey pairHasAlt.1 pairHasAlt.2.index)
        = mapSel (makeKey pairHasAlt.1 pairHasAlt.2.index)
    ∧ pairNoAlt ∈ allImages scanA
    ∧ bulkSelectMissingAlt scanA mapSel (makeKey pairNoAlt.1 pairNoAlt.2.index)
        = some { apply := true,
                 draftAlt := match mapSel (makeKey pairNoAlt.1 pairNoAlt.2.index) with
                   | some st => st.draftAlt
                   | none => baseAlt pairNoAlt.2 } :=
  ⟨by decide,
   (bulkSelectMissingAlt_spec scanA mapSel (by decide)).1,
   by decide,
   (bulkSelectMissingAlt_spec scanA mapSel (by decide)).2.1 pairHasAlt (by decide)
     ⟨"cat", rfl, by decide⟩,
   by decide,
   (bulkSelectMissingAlt_spec scanA mapSel (by decide)).2.2 pairNoAlt (by decide)
     (Or.inl rfl)⟩

/-- C5: with a scan result present and an empty built batch, the apply
handler makes no network call, leaves the scan result and the selection
state unchanged, and reports "No images selected for update.". -/
theorem apply_empty_batch_short_circuit (s : AppState)
    (net : List AltUpdate → Except ThrownError ApplyResponse) (r : ScanResponse)
    (hr : s.result = some r) (hb : buildUpdates r s.altState = []) :
    (onApplyChanges s net).2 = []
    ∧ (onApplyChanges s net).1.result = s.result
    ∧ (onApplyChanges s net).1.altState = s.altState
    ∧ (onApplyChanges s net).1.applyMessage = some "No images selected for update." := by
  unfold onApplyChanges
  rw [hr]
  simp [hb]

/-- Witness for C5: nothing selected, the handler short-circuits. -/
theorem apply_empty_batch_short_circuit_witness :
    stateEmptySel.result = some scanA
    ∧ buildUpdates scanA stateEmptySel.altState = []
    ∧ ((onApplyChanges stateEmptySel netApplyOk).2 = []
       ∧ (onApplyChanges stateEmptySel netApplyOk).1.result = stateEmptySel.result
       ∧ (onApplyChanges stateEmptySel netApplyOk).1.altState = stateEmptySel.altState
       ∧ (onApplyChanges stateEmptySel netApplyOk).1.applyMessage
           = some "No images selected for update.") :=
  ⟨rfl, by decide,
   apply_empty_batch_short_circuit stateEmptySel netApplyOk scanA rfl (by decide)⟩

/-- C4: after a protocol-successful apply call, the stored scan result
is the optimistic merge of the selection into the previous result: every
image whose selection has `apply = true` and a non-blank trimmed draft
gets that trimmed draft as its alt — for any response `resp`, so
independently of per-item success flags. -/
theorem apply_success_optimistic_reconcile (s : AppState)
    (net : List AltUpdate → Except ThrownError ApplyResponse)
    (r : ScanResponse) (resp : ApplyResponse)
    (hr : s.result = some r)
    (hb : buildUpdates r s.altState ≠ [])
    (hnet : net (buildUpdates r s.altState) = Except.ok resp) :
    (onApplyChanges s net).1.result = some (reconcileResult r s.altState)
    ∧ (reconcileResult r s.altState).posts
        = r.posts.map (fun post =>
            { post with images := post.images.map (applyDraftToImage s.altState post.uri) })
    ∧ ∀ post ∈ r.posts, ∀ img ∈ post.images, ∀ st,
        s.altState (makeKey post.uri img.index) = some st →
        st.apply = true → jsTrim st.draftAlt ≠ "" →
        applyDraftToImage s.altState post.uri img
          = { img with alt := some (jsTrim st.draftAlt) } := by
  refine ⟨?_, rfl, ?_⟩
  · unfold onApplyChanges
    rw [hr]
    dsimp only
    rw [if_neg (fun hlen => hb (List.length_eq_zero.mp hlen)), hnet]
  · intro post hp img hi st hst hap hdr
    unfold applyDraftToImage
    rw [hst]
    simp [hap, hdr]

/-- Witness for C4: the response reports a failed item, yet the
suggestion-only image's alt is replaced by the trimmed draft. -/
theorem apply_success_optimistic_reconcile_witness :
    stateA.result = some scanA
    ∧ buildUpdates scanA stateA.altState ≠ []
    ∧ netApplyOk (buildUpdates scanA stateA.altState) = Except.ok respOneFail
    ∧ (onApplyChanges stateA netApplyOk).1.result
        = some (reconcileResult scanA stateA.altState)
    ∧ postA ∈ scanA.posts
    ∧ imgNoAlt ∈ postA.images
    ∧ stateA.altState (makeKey postA.uri imgNoAlt.index)
        = some { apply := true, draftAlt := " a red bicycle " }
    ∧ applyDraftToImage stateA.altState postA.uri imgNoAlt
        = { imgNoAlt with alt := some "a red bicycle" } :=
  ⟨rfl, by decide, rfl,
   (apply_success_optimistic_reconcile stateA netApplyOk scanA respOneFail rfl
     (by decide) rfl).1,
   by decide, by decide, by decide,
   (apply_success_optimistic_reconcile stateA netApplyOk scanA respOneFail rfl
     (by decide) rfl).2.2 postA (by decide) imgNoAlt (by decide)
     { apply := true, draftAlt := " a red bicycle " } (by decide) rfl (by decide)⟩

/-- C3 as stated is false: after a scan transport failure the Scan
Result Store does not retain the value it held before the call —
`onSubmit` clears it before calling, so a populated store ends empty. -/
theorem transport_failure_retention_cex :
    (onSubmit stateA (Except.error errBoom)).1.result ≠ stateA.result := by
  decide

/-- C3 amended: a transport failure of the apply call leaves the Scan
Result Store and the Selection State Store exactly as before, with only
an error message surfaced; a transport failure of the scan call instead
leaves both stores cleared (no result, empty selection) — they were
reset at submission start — again surfacing only an error message. -/
theorem transport_failure_state_amended :
    (∀ (s : AppState) (net : List AltUpdate → Except ThrownError ApplyResponse)
        (r : ScanResponse) (e : ThrownError),
      s.result = some r →
      buildUpdates r s.altState ≠ [] →
      net (buildUpdates r s.altState) = Except.error e →
      (onApplyChanges s net).1.result = s.result
      ∧ (onApplyChanges s net).1.altState = s.altState
      ∧ (onApplyChanges s net).1.error
          = some (extractErrorMessage "An error occurred while applying changes." e))
    ∧ (∀ (s : AppState) (e : ThrownError),
      s.handle ≠ "" → s.appPassword ≠ "" →
      (onSubmit s (Except.error e)).1.result = none
      ∧ (onSubmit s (Except.error e)).1.altState = emptyAltMap
      ∧ (onSubmit s (Except.error e)).1.error
          = some (extractErrorMessage "An error occurred while scanning." e)) := by
  constructor
  · intro s net r e hr hb hnet
    unfold onApplyChanges
    rw [hr]
    dsimp only
    rw [if_neg (fun hlen => hb (List.length_eq_zero.mp hlen)), hnet]
    exact ⟨rfl, rfl, rfl⟩
  · intro s e h1 h2
    unfold onSubmit
    rw [if_neg (fun hor => Or.elim hor h1 h2)]
    exact ⟨rfl, rfl, rfl⟩

/-- Witness for the amended C3 on both branches. -/
theorem transport_failure_state_amended_witness :
    (stateA.result = some scanA
     ∧ buildUpdates scanA stateA.altState ≠ []
     ∧ netApplyFail (buildUpdates scanA stateA.altState) = Except.error errBoom
     ∧ ((onApplyChanges stateA netApplyFail).1.result = stateA.result
        ∧ (onApplyChanges stateA netApplyFail).1.altState = stateA.altState
        ∧ (onApplyChanges stateA netApplyFail).1.error = some "boom"))
    ∧ (stateA.handle ≠ "" ∧ stateA.appPassword ≠ ""
       ∧ ((onSubmit stateA (Except.error errBoom)).1.result = none
          ∧ (onSubmit stateA (Except.error errBoom)).1.altState = emptyAltMap
          ∧ (onSubmit stateA (Except.error errBoom)).1.error = some "boom")) :=
  ⟨⟨rfl, by decide, rfl,
    transport_failure_state_amended.1 stateA netApplyFail scanA errBoom rfl (by decide) rfl⟩,
   ⟨by decide, by decide,
    transport_failure_state_amended.2 stateA errBoom (by decide) (by decide)⟩⟩

end AltSlinger
